import Mathlib

/-!
Shallow embedding of `pennylane_aqt/device.py` (class `AQTDevice`).

Modelling conventions:
* Python floats are modelled as exact rationals (`ℚ`).  The float constant
  `np.pi` is modelled as a parameter `pi : ℚ`; every claim about the angle
  convention is proved for an arbitrary (nonzero, where needed) `pi`, which in
  particular covers the concrete value of `np.pi`.  The concrete angle values
  the spec talks about (`0.5`, `1.0`) are produced exactly by IEEE float
  arithmetic as well, since they arise as `x / x` and `(0.5 * x) / x`.
* Python exceptions are modelled by the `PyError` type; a method that can
  raise returns `Except PyError α`.  Because a raised exception does not roll
  back earlier attribute mutations, stateful methods return the pair
  `Except PyError α × DeviceState` (result, post-state).
* The HTTP layer (`api_client.submit`) is modelled by an oracle: a list of
  `Response` values consumed in order (first the submission response, then one
  response per poll iteration).  `apply` additionally returns the list of
  requests it issued, so that "no network call happens" is a statement about
  that list.  An exhausted oracle yields the distinguished outcome
  `RunResult.pending`, modelling the still-spinning unbounded poll loop.
* `os.getenv("AQT_TOKEN")` is modelled by an explicit argument
  `env : Option String`.
-/

/-- Python exception kinds raised (directly or indirectly) by the device code.
`gatewayError` stands for the exception raised by
`api_client.raise_invalid_status_exception` (see `submitPhase` below). -/
inductive PyError where
  | deviceError (msg : String)
  | keyError (key : String)
  | typeError
  | valueError (msg : String)
  | gatewayError (status : Nat) (body : String)
deriving DecidableEq, Repr

/-- A Python value that is either a float or a 1-d numpy array of floats,
as they occur in `operation.parameters`. -/
inductive PyNumArr where
  | num (x : ℚ)
  | arr (xs : List ℚ)
deriving DecidableEq, Repr

/-- Result of the parameter-extraction lines of `_apply_operation`
(`device.py:172-175`): with the default `par=None`, a one-element
`operation.parameters` yields that element, a two-element list yields the
list itself (used by the `R` branch), anything else leaves `par = None`. -/
inductive ParV where
  | obj (o : PyNumArr)
  | pair (o₁ o₂ : PyNumArr)
deriving DecidableEq, Repr

/-- One entry of `self.circuit`.  `_append_op_to_queue` appends the 3-element
list `[aqt_op_name, par, wires]` (where `aqt_op_name` comes from
`_operation_map` and may be Python `None`); the `R` branch of
`_apply_operation` appends the 4-element list `[op_name, par[0], par[1],
wires]` directly. -/
inductive CircuitEntry where
  | entry (name : Option String) (par : PyNumArr) (wires : List Nat)
  | rEntry (name : String) (par0 par1 : ℚ) (wires : List Nat)
deriving DecidableEq, Repr

/-- A framework operation: name, parameter list, target wires
(`operation.name`, `operation.parameters`, `operation.wires`). -/
structure Operation where
  name : String
  parameters : List PyNumArr
  wires : List Nat
deriving DecidableEq, Repr

/-- The contents of `self.data` (`device.py:114` and `144`): the dict
`{"access_token": ..., "no_qubits": ...}`, to which `apply` adds
`"repetitions"`. -/
structure ApiData where
  access_token : String
  no_qubits : Nat
  repetitions : Option Nat
deriving DecidableEq, Repr

/-- The mutable attributes of an `AQTDevice` instance. -/
structure DeviceState where
  num_wires : Nat
  shots : Nat
  initial_shots : Nat
  api_key : Option String
  circuit : List CircuitEntry
  circuit_json : String
  samples : Option (List Nat)
  header : List (String × String)
  data : ApiData
  hostname : String
deriving DecidableEq, Repr

/-- The JSON body returned by the gateway for a job: its id, its status
string, and (once finished) its list of integer samples. -/
structure Job where
  id : String
  status : String
  samples : List Nat
deriving DecidableEq, Repr

/-- An HTTP response from the gateway: status code, body text, and the
decoded JSON job record (`response.json()`). -/
structure Response where
  statusCode : Nat
  text : String
  job : Job
deriving DecidableEq, Repr

/-- The body of a request issued through `api_client.submit`: either the
initial job submission `{**self.data, "data": circuit_json}` or a poll query
`{"id": ..., "access_token": ...}`. -/
inductive ReqBody where
  | submission (access_token : String) (no_qubits : Nat) (repetitions : Nat) (data : String)
  | query (id : String) (access_token : String)
deriving DecidableEq, Repr

/-- One HTTP request issued by the device. -/
structure Request where
  method : String
  hostname : String
  body : ReqBody
  header : List (String × String)
deriving DecidableEq, Repr

/-- Outcome of a call to `apply`: normal return, a raised exception, or
`pending` when the response oracle is exhausted while the unbounded poll
loop is still running. -/
inductive RunResult where
  | ok
  | raised (e : PyError)
  | pending
deriving DecidableEq, Repr

deriving instance DecidableEq for Except

/-- Python truthiness of an optional string (`None` and `""` are falsy),
used to model `self._api_key or os.getenv("AQT_TOKEN")` and
`if not self._api_key`. -/
def truthyKey : Option String → Bool
  | none => false
  | some s => !(s == "")

namespace AQTDevice

/-- Constant `BASE_SHOTS` (`device.py:42`). -/
def BASE_SHOTS : Nat := 200

/-- Constant `BASE_HOSTNAME` (`device.py:85`). -/
def BASE_HOSTNAME : String := "https://gateway.aqt.eu/marmot"

/-- Constant `TARGET_PATH` (`device.py:86`). -/
def TARGET_PATH : String := ""

/-- Constant `HTTP_METHOD` (`device.py:87`). -/
def HTTP_METHOD : String := "PUT"

/-- Modelled from the spec: `api_client.join_path` is not under `src/`; the
spec (§6) says requests go to the "fixed gateway base URL plus target path",
so it is modelled as concatenation of the two path components. -/
def join_path (base path : String) : String := base ++ path

/-- The class dict `_operation_map` (`device.py:67-81`), as a lookup
function: `none` models a missing key (Python `KeyError` on subscript),
`some none` models a key mapped to Python `None`. -/
def operation_map : String → Option (Option String)
  | "RX" => some (some "X")
  | "RY" => some (some "Y")
  | "RZ" => some (some "Z")
  | "BasisState" => some none
  | "PauliX" => some none
  | "PauliY" => some none
  | "PauliZ" => some none
  | "Hadamard" => some none
  | "R" => some (some "R")
  | "MS" => some (some "MS")
  | _ => none

/-- The set literal `{"BasisState", "QubitStateVector"}` used by the
ordering check in `apply` (`device.py:130`). -/
def spNames : List String := ["BasisState", "QubitStateVector"]

/-- Method `set_api_configs` (`device.py:106-115`).  Mutates `_api_key` first, then
either raises `ValueError` (leaving `header`/`data`/`hostname` untouched) or
sets the connection attributes.  `env` models `os.getenv("AQT_TOKEN")`. -/
def set_api_configs (s : DeviceState) (env : Option String) :
    Except PyError Unit × DeviceState :=
  let key := if truthyKey s.api_key then s.api_key else env
  let s₁ := { s with api_key := key }
  if truthyKey key then
    match key with
    | some k =>
        (Except.ok (),
          { s₁ with
            header := [("Ocp-Apim-Subscription-Key", k)]
            data := { access_token := k, no_qubits := s₁.num_wires, repetitions := none }
            hostname := join_path BASE_HOSTNAME TARGET_PATH })
    | none => (Except.error (PyError.valueError "No valid api key for AQT platform found."), s₁)
  else
    (Except.error (PyError.valueError "No valid api key for AQT platform found."), s₁)

/-- Constructor `__init__` (`device.py:89-96`): initialize the attributes and eagerly
call `set_api_configs`; a raised `ValueError` means no device object is
produced, so the result is just an `Except`. -/
def init (wires : Nat) (shots : Nat) (api_key : Option String) (env : Option String) :
    Except PyError DeviceState :=
  let s : DeviceState :=
    { num_wires := wires
      shots := shots
      initial_shots := shots
      api_key := api_key
      circuit := []
      circuit_json := ""
      samples := none
      header := []
      data := { access_token := "", no_qubits := 0, repetitions := none }
      hostname := "" }
  match set_api_configs s env with
  | (Except.ok _, s₁) => Except.ok s₁
  | (Except.error e, _) => Except.error e

/-- Method `reset` (`device.py:98-104`): restore the shot count, clear the circuit
buffer, the serialized circuit and the cached samples, then reload the API
configuration.  The field mutations happen before `set_api_configs`, so they
are visible in the post-state even if it raises. -/
def reset (s : DeviceState) (env : Option String) :
    Except PyError Unit × DeviceState :=
  set_api_configs
    { s with
      shots := s.initial_shots
      circuit := []
      circuit_json := ""
      samples := none }
    env

/-- Parameter extraction of `_apply_operation` (`device.py:172-175`), at the
default `par=None` (no in-repo caller supplies an explicit `par`):
a one-element `operation.parameters` yields that element, a two-element one
yields the pair, anything else leaves `par = None` (here `none`). -/
def extract_par : List PyNumArr → Option ParV
  | [p] => some (ParV.obj p)
  | [p, q] => some (ParV.pair p q)
  | _ => none

/-- Method `_append_op_to_queue` (`device.py:198-209`): divide the parameter by
`pi` (for a numpy array, the division broadcasts elementwise), then look the
PennyLane name up in `_operation_map` and append `[aqt_op_name, par, wires]`.
A missing key raises `KeyError`; dividing Python `None` or a two-element
list by a float raises `TypeError` before the lookup, leaving the state
unchanged. -/
def append_op_to_queue (pi : ℚ) (s : DeviceState) (op_name : String)
    (par : Option ParV) (wires : List Nat) : Except PyError Unit × DeviceState :=
  match par with
  | some (ParV.obj (PyNumArr.num x)) =>
      match operation_map op_name with
      | some aqt_op_name =>
          (Except.ok (),
            { s with circuit := s.circuit ++ [CircuitEntry.entry aqt_op_name (PyNumArr.num (x / pi)) wires] })
      | none => (Except.error (PyError.keyError op_name), s)
  | some (ParV.obj (PyNumArr.arr xs)) =>
      match operation_map op_name with
      | some aqt_op_name =>
          (Except.ok (),
            { s with circuit := s.circuit ++ [CircuitEntry.entry aqt_op_name (PyNumArr.arr (xs.map (· / pi))) wires] })
      | none => (Except.error (PyError.keyError op_name), s)
  | _ => (Except.error PyError.typeError, s)

/-- The `BasisState` loop of `_apply_operation` (`device.py:182-184`):
`for bit, wire in zip(par, wires): if bit == 1: self._append_op_to_queue("RX", np.pi, wires=[wire])`.
A raised exception from the append (impossible here, since `"RX"` is mapped
and `np.pi` is a float, but kept for faithfulness) propagates. -/
def basis_state_loop (pi : ℚ) (s : DeviceState) :
    List (ℚ × Nat) → Except PyError Unit × DeviceState
  | [] => (Except.ok (), s)
  | (bit, wire) :: rest =>
      if bit = 1 then
        match append_op_to_queue pi s "RX" (some (ParV.obj (PyNumArr.num pi))) [wire] with
        | (Except.ok _, s₁) => basis_state_loop pi s₁ rest
        | (Except.error e, s₁) => (Except.error e, s₁)
      else basis_state_loop pi s rest

/-- The Python expression `par * np.pi` used by the `MS` branch
(`device.py:194`): floats multiply, numpy arrays broadcast; multiplying
`None` or a list raises `TypeError` — here the offending value is passed
through unchanged and `append_op_to_queue` raises the same `TypeError`
without touching the state, so the observable outcome agrees. -/
def mul_pi (pi : ℚ) : Option ParV → Option ParV
  | some (ParV.obj (PyNumArr.num x)) => some (ParV.obj (PyNumArr.num (x * pi)))
  | some (ParV.obj (PyNumArr.arr xs)) => some (ParV.obj (PyNumArr.arr (xs.map (· * pi))))
  | p => p

/-- The Python expression `"R{}".format(op_name[-1])` (`device.py:191`):
`"R"` followed by the last character of the name. -/
def rename_pauli (name : String) : String :=
  ("R" : String).push (name.data.getLastD 'A')

/-- Evaluations of `rename_pauli` on the three names that reach it. -/
theorem rename_pauli_eq :
    rename_pauli "PauliX" = "RX" ∧ rename_pauli "PauliY" = "RY" ∧ rename_pauli "PauliZ" = "RZ" :=
  ⟨rfl, rfl, rfl⟩

/-- Method `_apply_operation` (`device.py:159-196`) at the default `par=None`,
`wires=None` (no in-repo caller passes explicit overrides): translate one
framework operation and append the result to `self.circuit`.
The `R` branch appends `[op_name, par[0], par[1], wires]` directly (no
division by `pi`); parameter shapes other than two floats make the
subscripts/unpacking raise and are modelled as `TypeError` with the state
unchanged. -/
def apply_operation (pi : ℚ) (s : DeviceState) (op : Operation) :
    Except PyError Unit × DeviceState :=
  let par := extract_par op.parameters
  let wires := op.wires
  if op.name = "R" then
    match par with
    | some (ParV.pair (PyNumArr.num p0) (PyNumArr.num p1)) =>
        (Except.ok (), { s with circuit := s.circuit ++ [CircuitEntry.rEntry op.name p0 p1 wires] })
    | _ => (Except.error PyError.typeError, s)
  else if op.name = "BasisState" then
    match par with
    | some (ParV.obj (PyNumArr.arr bits)) => basis_state_loop pi s (bits.zip wires)
    | _ => (Except.error PyError.typeError, s)
  else
    let step : String × Option ParV :=
      if op.name = "Hadamard" then ("RY", some (ParV.obj (PyNumArr.num ((1 / 2 : ℚ) * pi))))
      else if op.name = "PauliX" ∨ op.name = "PauliY" ∨ op.name = "PauliZ" then
        (rename_pauli op.name, some (ParV.obj (PyNumArr.num pi)))
      else if op.name = "MS" then (op.name, mul_pi pi par)
      else (op.name, par)
    append_op_to_queue pi s step.1 step.2 wires

/-- JSON rendering of a number.  The decimal float rendering of
`json.dumps` is abstracted by the exact rational rendering. -/
def json_num (x : ℚ) : String := toString x

/-- JSON rendering of a list of wire indices. -/
def json_wires (ws : List Nat) : String :=
  "[" ++ String.intercalate ", " (ws.map toString) ++ "]"

/-- JSON rendering of a gate-name field; Python `None` serializes as
`null`. -/
def json_name : Option String → String
  | none => "null"
  | some n => "\"" ++ n ++ "\""

/-- JSON rendering of a parameter value. -/
def json_par : PyNumArr → String
  | PyNumArr.num x => json_num x
  | PyNumArr.arr xs => "[" ++ String.intercalate ", " (xs.map json_num) ++ "]"

/-- JSON rendering of one circuit entry. -/
def json_entry : CircuitEntry → String
  | CircuitEntry.entry name par wires =>
      "[" ++ json_name name ++ ", " ++ json_par par ++ ", " ++ json_wires wires ++ "]"
  | CircuitEntry.rEntry name p0 p1 wires =>
      "[" ++ json_name (some name) ++ ", " ++ json_num p0 ++ ", " ++ json_num p1 ++ ", "
        ++ json_wires wires ++ "]"

/-- Static method `serialize` (`device.py:211-219`): `json.dumps(circuit)`. -/
def serialize (circuit : List CircuitEntry) : String :=
  "[" ++ String.intercalate ", " (circuit.map json_entry) ++ "]"

/-- The ordering-error message of `apply` (`device.py:131-135`). -/
def ordering_msg (name : String) : String :=
  "The operation " ++ name ++ " is only supported at the beginning of a circuit."

/-- The `for i, operation in enumerate(operations)` loop of `apply`
(`device.py:129-136`): at index `i > 0` an operation named in `spNames`
raises the ordering `DeviceError` before being applied; otherwise the
operation is translated, and a translation exception propagates.  The state
reached so far is kept in either case. -/
def apply_loop (pi : ℚ) :
    DeviceState → List Operation → Nat → Except PyError Unit × DeviceState
  | s, [], _ => (Except.ok (), s)
  | s, op :: rest, i =>
      if 0 < i ∧ op.name ∈ spNames then
        (Except.error (PyError.deviceError (ordering_msg op.name)), s)
      else
        match apply_operation pi s op with
        | (Except.ok _, s₁) => apply_loop pi s₁ rest (i + 1)
        | (Except.error e, s₁) => (Except.error e, s₁)

/-- The plain `for operation in rotations` loop of `apply`
(`device.py:139-140`): sequential `_apply_operation` with no ordering
check. -/
def apply_ops_seq (pi : ℚ) :
    DeviceState → List Operation → Except PyError Unit × DeviceState
  | s, [] => (Except.ok (), s)
  | s, op :: rest =>
      match apply_operation pi s op with
      | (Except.ok _, s₁) => apply_ops_seq pi s₁ rest
      | (Except.error e, s₁) => (Except.error e, s₁)

/-- The translation phase of `apply` (`device.py:129-140`): the checked
operations loop followed by the rotations loop. -/
def translate_phase (pi : ℚ) (s : DeviceState)
    (operations rotations : List Operation) : Except PyError Unit × DeviceState :=
  match apply_loop pi s operations 0 with
  | (Except.ok _, s₁) => apply_ops_seq pi s₁ rotations
  | (Except.error e, s₁) => (Except.error e, s₁)

/-- The attribute updates of `apply` just before submission
(`device.py:143-144`): `self.circuit_json = self.serialize(self.circuit)`
and `self.data["repetitions"] = self.shots`. -/
def prepared_state (s : DeviceState) : DeviceState :=
  { s with
    circuit_json := serialize s.circuit
    data := { s.data with repetitions := some s.shots } }

/-- The submission request issued by `apply` (`device.py:145-146`):
`submit(self.HTTP_METHOD, self.hostname, {**self.data, "data": self.circuit_json}, self.header)`. -/
def submit_request (s : DeviceState) : Request :=
  { method := HTTP_METHOD
    hostname := s.hostname
    body := ReqBody.submission s.data.access_token s.data.no_qubits s.shots s.circuit_json
    header := s.header }

/-- A poll request (`device.py:152-155`): `submit` with the fixed
`job_query_data = {"id": job["id"], "access_token": self._api_key}` computed
once from the submission response. -/
def poll_request (s : DeviceState) (queryId : String) : Request :=
  { method := HTTP_METHOD
    hostname := s.hostname
    body := ReqBody.query queryId (s.api_key.getD "")
    header := s.header }

/-- The `while job["status"] != "finished"` poll loop of `apply`
(`device.py:153-157`), driven by the response oracle: each iteration issues
one poll request and replaces `job` by the next response's JSON; on exit the
samples are cached.  An exhausted oracle models the still-running unbounded
loop (`RunResult.pending`). -/
def poll_loop (s : DeviceState) (queryId : String) :
    List Response → Job → RunResult × DeviceState × List Request
  | oracle, job =>
      if job.status = "finished" then
        (RunResult.ok, { s with samples := some job.samples }, [])
      else
        match oracle with
        | [] => (RunResult.pending, s, [])
        | r :: rest =>
            let next := poll_loop s queryId rest r.job
            (next.1, next.2.1, poll_request s queryId :: next.2.2)

/-- Method `apply` (`device.py:126-157`): translate the operations and rotations,
serialize, submit once, validate the submission status (an invalid status
raises the gateway error from `api_client.raise_invalid_status_exception`,
modelled from the spec as carrying the HTTP status and body), then poll
until the job is finished and cache its samples.  `valid_status` models
`api_client.valid_status_code` (not under `src/`): the spec only says a
"non-success status" is invalid, so the success set is kept abstract as a
predicate on the status code.  The third component is the list of issued
HTTP requests. -/
def apply (pi : ℚ) (valid_status : Nat → Bool) (s : DeviceState)
    (operations rotations : List Operation) (oracle : List Response) :
    RunResult × DeviceState × List Request :=
  match translate_phase pi s operations rotations with
  | (Except.error e, s₁) => (RunResult.raised e, s₁, [])
  | (Except.ok _, s₂) =>
      let s₃ := prepared_state s₂
      let req := submit_request s₃
      match oracle with
      | [] => (RunResult.pending, s₃, [req])
      | r :: rest =>
          if valid_status r.statusCode then
            let next := poll_loop s₃ r.job.id rest r.job
            (next.1, next.2.1, req :: next.2.2)
          else
            (RunResult.raised (PyError.gatewayError r.statusCode r.text), s₃, [req])

/-- numpy transpose (`.T`) of a rectangular matrix given as a list of rows:
column `j` of the input becomes row `j` of the output.  The default value of
`getD` is never used on rectangular input. -/
def np_transpose (m : List (List Nat)) : List (List Nat) :=
  (List.range ((m.head?.map List.length).getD 0)).map
    (fun j => m.map (fun row => row.getD j 0))

/-- Method `generate_samples` (`device.py:221-224`):
`np.stack(np.unravel_index(self.samples, [2]*self.num_wires, order="F")).T`.
With Fortran ordering the coordinate along dimension `k` of flat index `v`
is `v / 2^k % 2`; `unravel_index` raises `ValueError` on an out-of-range
index and `TypeError` on `None`. -/
def generate_samples (s : DeviceState) : Except PyError (List (List Nat)) :=
  match s.samples with
  | none => Except.error PyError.typeError
  | some vals =>
      if vals.all (· < 2 ^ s.num_wires) then
        Except.ok (np_transpose
          ((List.range s.num_wires).map (fun k => vals.map (fun v => v / 2 ^ k % 2))))
      else Except.error (PyError.valueError "index out of bounds")

end AQTDevice

/-- A concrete device state used by witnesses and counterexamples; it is the
state produced by `AQTDevice.init 3 100 (some "k") none`. -/
def exampleState : DeviceState :=
  { num_wires := 3
    shots := 100
    initial_shots := 100
    api_key := some "k"
    circuit := []
    circuit_json := ""
    samples := none
    header := [("Ocp-Apim-Subscription-Key", "k")]
    data := { access_token := "k", no_qubits := 3, repetitions := none }
    hostname := "https://gateway.aqt.eu/marmot" }












/-- Discriminator used by counterexamples: whether a translation result is a
raised `DeviceError`. -/
def isDeviceError : Except PyError Unit → Bool
  | Except.error (PyError.deviceError _) => true
  | _ => false

/-- Discriminator used by counterexamples: whether an `apply` outcome is a
raised `DeviceError`. -/
def raisedDeviceError : RunResult → Bool
  | RunResult.raised (PyError.deviceError _) => true
  | _ => false

namespace AQTDevice

/-- A name missing from `_operation_map` is in particular none of the names
that `_apply_operation` special-cases (they are all keys of the map). -/
theorem operation_map_none_ne (n : String) (h : operation_map n = none) :
    n ≠ "R" ∧ n ≠ "BasisState" ∧ n ≠ "Hadamard" ∧ n ≠ "PauliX" ∧ n ≠ "PauliY" ∧
      n ≠ "PauliZ" ∧ n ≠ "MS" := by
  refine ⟨?_, ?_, ?_, ?_, ?_, ?_, ?_⟩ <;> rintro rfl <;> simp [operation_map] at h

end AQTDevice

/-- C1 (amended): every parameter queued through `_append_op_to_queue` is
stored divided by `pi`; in particular the supported single-angle framework
gates `RX`/`RY`/`RZ` store exactly their framework angle divided by `pi`.
The two-angle `R` gate's parameters, however, are appended to the circuit
buffer raw, with no division, and the `MS` gate's stored angle equals its
raw framework parameter because the pre-scaling by `pi` cancels against the
division. -/
theorem C1_angle_division (pi : ℚ) (s : DeviceState) (x p0 p1 : ℚ)
    (op_name : String) (m : Option String) (ws : List Nat) :
    (AQTDevice.operation_map op_name = some m →
      AQTDevice.append_op_to_queue pi s op_name (some (ParV.obj (PyNumArr.num x))) ws =
        (Except.ok (), { s with
          circuit := s.circuit ++ [CircuitEntry.entry m (PyNumArr.num (x / pi)) ws] })) ∧
    (AQTDevice.apply_operation pi s ⟨"RX", [PyNumArr.num x], ws⟩ =
        (Except.ok (), { s with
          circuit := s.circuit ++ [CircuitEntry.entry (some "X") (PyNumArr.num (x / pi)) ws] })) ∧
    (AQTDevice.apply_operation pi s ⟨"RY", [PyNumArr.num x], ws⟩ =
        (Except.ok (), { s with
          circuit := s.circuit ++ [CircuitEntry.entry (some "Y") (PyNumArr.num (x / pi)) ws] })) ∧
    (AQTDevice.apply_operation pi s ⟨"RZ", [PyNumArr.num x], ws⟩ =
        (Except.ok (), { s with
          circuit := s.circuit ++ [CircuitEntry.entry (some "Z") (PyNumArr.num (x / pi)) ws] })) ∧
    (AQTDevice.apply_operation pi s ⟨"R", [PyNumArr.num p0, PyNumArr.num p1], ws⟩ =
        (Except.ok (), { s with
          circuit := s.circuit ++ [CircuitEntry.rEntry "R" p0 p1 ws] })) ∧
    (pi ≠ 0 →
      AQTDevice.apply_operation pi s ⟨"MS", [PyNumArr.num x], ws⟩ =
        (Except.ok (), { s with
          circuit := s.circuit ++ [CircuitEntry.entry (some "MS") (PyNumArr.num x) ws] })) := by
  refine ⟨?_, ?_, ?_, ?_, ?_, ?_⟩
  · intro hm
    simp [AQTDevice.append_op_to_queue, hm]
  · simp [AQTDevice.apply_operation, AQTDevice.extract_par, AQTDevice.append_op_to_queue,
      AQTDevice.operation_map]
  · simp [AQTDevice.apply_operation, AQTDevice.extract_par, AQTDevice.append_op_to_queue,
      AQTDevice.operation_map]
  · simp [AQTDevice.apply_operation, AQTDevice.extract_par, AQTDevice.append_op_to_queue,
      AQTDevice.operation_map]
  · simp [AQTDevice.apply_operation, AQTDevice.extract_par]
  · intro hpi
    simp [AQTDevice.apply_operation, AQTDevice.extract_par, AQTDevice.append_op_to_queue,
      AQTDevice.operation_map, AQTDevice.mul_pi, mul_div_cancel_right₀ x hpi]

/-- C1 witness: at `pi = 2`, queueing `RX` with parameter `3` stores the
angle `3 / 2`. -/
theorem C1_angle_division_witness :
    AQTDevice.append_op_to_queue 2 exampleState "RX" (some (ParV.obj (PyNumArr.num 3))) [0] =
      (Except.ok (), { exampleState with
        circuit := exampleState.circuit ++ [CircuitEntry.entry (some "X") (PyNumArr.num (3 / 2)) [0]] }) :=
  (C1_angle_division 2 exampleState 3 0 0 "RX" (some "X") [0]).1 rfl

/-- C1 counterexample: with `pi = 2`, applying the two-angle `R` gate with
framework parameters `(2, 2)` stores the raw value `2` as the first queued
angle, while the claim demands the stored angle `2 / pi`; these differ. -/
theorem C1_counterexample :
    (AQTDevice.apply_operation 2 exampleState ⟨"R", [PyNumArr.num 2, PyNumArr.num 2], [0]⟩).2.circuit =
      [CircuitEntry.rEntry "R" 2 2 [0]] ∧ ¬((2 : ℚ) = 2 / 2) := by
  constructor
  · simp [AQTDevice.apply_operation, AQTDevice.extract_par, exampleState]
  · norm_num

/-- C3 (amended): an operation whose name has no entry in `_operation_map`
fails at circuit-application time without queueing any entry (the state is
returned unchanged), but with a Python lookup error (`KeyError`) when it
carries a single numeric parameter — and with a `TypeError` when it carries
no parameter, because `par / np.pi` is evaluated on `None` before the lookup
— not with a `DeviceError`. -/
theorem C3_unmapped_operation (pi : ℚ) (s : DeviceState) (op : Operation)
    (hmap : AQTDevice.operation_map op.name = none) :
    (∀ x, op.parameters = [PyNumArr.num x] →
      AQTDevice.apply_operation pi s op = (Except.error (PyError.keyError op.name), s)) ∧
    (op.parameters = [] →
      AQTDevice.apply_operation pi s op = (Except.error PyError.typeError, s)) := by
  obtain ⟨hR, hB, hH, hX, hY, hZ, hM⟩ := AQTDevice.operation_map_none_ne op.name hmap
  constructor
  · intro x hx
    simp [AQTDevice.apply_operation, hR, hB, hH, hX, hY, hZ, hM, hx,
      AQTDevice.extract_par, AQTDevice.append_op_to_queue, hmap]
  · intro hx
    simp [AQTDevice.apply_operation, hR, hB, hH, hX, hY, hZ, hM, hx,
      AQTDevice.extract_par, AQTDevice.append_op_to_queue, AQTDevice.mul_pi]

/-- C3 witness: the unmapped name `CNOT` with one numeric parameter raises
`KeyError "CNOT"` and leaves the state unchanged. -/
theorem C3_unmapped_operation_witness :
    AQTDevice.apply_operation 2 exampleState ⟨"CNOT", [PyNumArr.num 1], [0, 1]⟩ =
      (Except.error (PyError.keyError "CNOT"), exampleState) :=
  (C3_unmapped_operation 2 exampleState ⟨"CNOT", [PyNumArr.num 1], [0, 1]⟩ rfl).1 1 rfl

/-- C3 counterexample: the unmapped operation `CRZ` fails with a `KeyError`,
which is not a `DeviceError` as the claim states. -/
theorem C3_counterexample :
    AQTDevice.apply_operation 2 exampleState ⟨"CRZ", [PyNumArr.num (1/2)], [0, 1]⟩ =
      (Except.error (PyError.keyError "CRZ"), exampleState) ∧
    isDeviceError
      (AQTDevice.apply_operation 2 exampleState ⟨"CRZ", [PyNumArr.num (1/2)], [0, 1]⟩).1 = false := by
  constructor
  · decide
  · decide

/-- C7: on any wires, `Hadamard` queues exactly one vendor `Y` rotation
entry with angle `1/2`, and `PauliX`/`PauliY`/`PauliZ` queue exactly one
entry of the corresponding vendor rotation (`X`/`Y`/`Z`) with angle `1`. -/
theorem C7_fixed_angle_gates (pi : ℚ) (s : DeviceState) (ps : List PyNumArr)
    (ws : List Nat) (hpi : pi ≠ 0) :
    (AQTDevice.apply_operation pi s ⟨"Hadamard", ps, ws⟩ =
      (Except.ok (), { s with
        circuit := s.circuit ++ [CircuitEntry.entry (some "Y") (PyNumArr.num (1/2)) ws] })) ∧
    (AQTDevice.apply_operation pi s ⟨"PauliX", ps, ws⟩ =
      (Except.ok (), { s with
        circuit := s.circuit ++ [CircuitEntry.entry (some "X") (PyNumArr.num 1) ws] })) ∧
    (AQTDevice.apply_operation pi s ⟨"PauliY", ps, ws⟩ =
      (Except.ok (), { s with
        circuit := s.circuit ++ [CircuitEntry.entry (some "Y") (PyNumArr.num 1) ws] })) ∧
    (AQTDevice.apply_operation pi s ⟨"PauliZ", ps, ws⟩ =
      (Except.ok (), { s with
        circuit := s.circuit ++ [CircuitEntry.entry (some "Z") (PyNumArr.num 1) ws] })) := by
  refine ⟨?_, ?_, ?_, ?_⟩ <;>
    simp [AQTDevice.apply_operation, AQTDevice.append_op_to_queue, AQTDevice.operation_map,
      AQTDevice.rename_pauli_eq.1, AQTDevice.rename_pauli_eq.2.1, AQTDevice.rename_pauli_eq.2.2,
      mul_div_cancel_right₀ _ hpi, div_self hpi]

/-- C7 witness: concrete instance at `pi = 2` on wire list `[0]`. -/
theorem C7_fixed_angle_gates_witness :
    AQTDevice.apply_operation 2 exampleState ⟨"Hadamard", [], [0]⟩ =
      (Except.ok (), { exampleState with
        circuit := exampleState.circuit ++ [CircuitEntry.entry (some "Y") (PyNumArr.num (1/2)) [0]] }) :=
  (C7_fixed_angle_gates 2 exampleState [] [0] (by norm_num)).1

namespace AQTDevice

/-- The `BasisState` loop queues one `X` entry with angle `pi / pi = 1` per
bit equal to `1`, in order, and nothing for other bits. -/
theorem basis_state_loop_eq (pi : ℚ) (hpi : pi ≠ 0) (s : DeviceState)
    (l : List (ℚ × Nat)) :
    basis_state_loop pi s l =
      (Except.ok (), { s with circuit := (s.circuit ++
        l.filterMap (fun bw => if bw.1 = 1 then
          some (CircuitEntry.entry (some "X") (PyNumArr.num 1) [bw.2]) else none)) }) := by
  induction l generalizing s with
  | nil => simp [basis_state_loop]
  | cons bw rest ih =>
    obtain ⟨b, w⟩ := bw
    by_cases hb : b = 1
    · simp [basis_state_loop, hb, append_op_to_queue, operation_map, div_self hpi, ih]
    · simp [basis_state_loop, hb, ih]

end AQTDevice

/-- C6: a `BasisState` preparation expands into one queued vendor `X`
rotation with angle `1` per bit equal to `1` (paired positionally with its
wire), and no entry for zero bits; in particular bits `[1, 0, 1]` on wires
`[0, 1, 2]` queue exactly the two `X` entries on wires `0` and `2`. -/
theorem C6_basis_state (pi : ℚ) (s : DeviceState) (bits : List ℚ)
    (ws : List Nat) (hpi : pi ≠ 0) :
    (AQTDevice.apply_operation pi s ⟨"BasisState", [PyNumArr.arr bits], ws⟩ =
      (Except.ok (), { s with circuit := (s.circuit ++
        (bits.zip ws).filterMap (fun bw => if bw.1 = 1 then
          some (CircuitEntry.entry (some "X") (PyNumArr.num 1) [bw.2]) else none)) })) ∧
    (List.filterMap (fun bw => if bw.1 = 1 then
          some (CircuitEntry.entry (some "X") (PyNumArr.num 1) [bw.2]) else none)
        (List.zip ([1, 0, 1] : List ℚ) [0, 1, 2]) =
      [CircuitEntry.entry (some "X") (PyNumArr.num 1) [0],
       CircuitEntry.entry (some "X") (PyNumArr.num 1) [2]]) := by
  constructor
  · simp [AQTDevice.apply_operation, AQTDevice.extract_par,
      AQTDevice.basis_state_loop_eq pi hpi]
  · norm_num [List.filterMap_cons]

/-- C6 witness: concrete instance at `pi = 2`, bits `[1, 0, 1]`, wires
`[0, 1, 2]`. -/
theorem C6_basis_state_witness :
    AQTDevice.apply_operation 2 exampleState ⟨"BasisState", [PyNumArr.arr [1, 0, 1]], [0, 1, 2]⟩ =
      (Except.ok (), { exampleState with circuit := (exampleState.circuit ++
        (List.zip ([1, 0, 1] : List ℚ) [0, 1, 2]).filterMap (fun bw => if bw.1 = 1 then
          some (CircuitEntry.entry (some "X") (PyNumArr.num 1) [bw.2]) else none)) }) :=
  (C6_basis_state 2 exampleState [1, 0, 1] [0, 1, 2] (by norm_num)).1


namespace AQTDevice

/-- Each `_append_op_to_queue` call only ever appends to the circuit
buffer. -/
theorem append_op_to_queue_circuit_mono (pi : ℚ) (s : DeviceState) (n : String)
    (par : Option ParV) (ws : List Nat) :
    ∃ t, (append_op_to_queue pi s n par ws).2.circuit = s.circuit ++ t := by
  rcases par with _ | p
  · exact ⟨[], by simp [append_op_to_queue]⟩
  rcases p with o | ⟨o₁, o₂⟩
  · rcases o with x | xs
    · rcases hm : operation_map n with _ | m
      · exact ⟨[], by simp [append_op_to_queue, hm]⟩
      · exact ⟨[CircuitEntry.entry m (PyNumArr.num (x / pi)) ws],
          by simp [append_op_to_queue, hm]⟩
    · rcases hm : operation_map n with _ | m
      · exact ⟨[], by simp [append_op_to_queue, hm]⟩
      · exact ⟨[CircuitEntry.entry m (PyNumArr.arr (xs.map (· / pi))) ws],
          by simp [append_op_to_queue, hm]⟩
  · exact ⟨[], by simp [append_op_to_queue]⟩

/-- The `BasisState` loop only ever appends to the circuit buffer. -/
theorem basis_state_loop_circuit_mono (pi : ℚ) (l : List (ℚ × Nat)) :
    ∀ s : DeviceState, ∃ t, (basis_state_loop pi s l).2.circuit = s.circuit ++ t := by
  induction l with
  | nil => intro s; exact ⟨[], by simp [basis_state_loop]⟩
  | cons bw rest ih =>
    intro s
    obtain ⟨b, w⟩ := bw
    by_cases hb : b = 1
    · rcases hres : append_op_to_queue pi s "RX" (some (ParV.obj (PyNumArr.num pi))) [w]
        with ⟨r, s₁⟩
      obtain ⟨t₀, ht₀⟩ := append_op_to_queue_circuit_mono pi s "RX"
        (some (ParV.obj (PyNumArr.num pi))) [w]
      rw [hres] at ht₀
      simp only [] at ht₀
      cases r with
      | ok u =>
        obtain ⟨t₁, ht₁⟩ := ih s₁
        refine ⟨t₀ ++ t₁, ?_⟩
        simp [basis_state_loop, hb, hres, ht₁, ht₀, List.append_assoc]
      | error e =>
        refine ⟨t₀, ?_⟩
        simp [basis_state_loop, hb, hres, ht₀]
    · obtain ⟨t, ht⟩ := ih s
      exact ⟨t, by simp [basis_state_loop, hb, ht]⟩

/-- Lemma: `_apply_operation` only ever appends to the circuit buffer. -/
theorem apply_operation_circuit_mono (pi : ℚ) (s : DeviceState) (op : Operation) :
    ∃ t, (apply_operation pi s op).2.circuit = s.circuit ++ t := by
  by_cases hR : op.name = "R"
  · rcases hp : extract_par op.parameters with _ | p
    · exact ⟨[], by simp [apply_operation, hR, hp]⟩
    rcases p with o | ⟨o₁, o₂⟩
    · exact ⟨[], by simp [apply_operation, hR, hp]⟩
    rcases o₁ with x | xs
    · rcases o₂ with y | ys
      · exact ⟨[CircuitEntry.rEntry "R" x y op.wires], by simp [apply_operation, hR, hp]⟩
      · exact ⟨[], by simp [apply_operation, hR, hp]⟩
    · exact ⟨[], by simp [apply_operation, hR, hp]⟩
  by_cases hB : op.name = "BasisState"
  · rcases hp : extract_par op.parameters with _ | p
    · exact ⟨[], by simp [apply_operation, hR, hB, hp]⟩
    rcases p with o | ⟨o₁, o₂⟩
    · rcases o with x | xs
      · exact ⟨[], by simp [apply_operation, hR, hB, hp]⟩
      · obtain ⟨t, ht⟩ := basis_state_loop_circuit_mono pi (xs.zip op.wires) s
        exact ⟨t, by simp [apply_operation, hR, hB, hp, ht]⟩
    · exact ⟨[], by simp [apply_operation, hR, hB, hp]⟩
  by_cases hH : op.name = "Hadamard"
  · obtain ⟨t, ht⟩ := append_op_to_queue_circuit_mono pi s "RY"
      (some (ParV.obj (PyNumArr.num ((1/2 : ℚ) * pi)))) op.wires
    exact ⟨t, by simp only [apply_operation, hR, hB, hH, reduceIte]; simpa using ht⟩
  by_cases hP : op.name = "PauliX" ∨ op.name = "PauliY" ∨ op.name = "PauliZ"
  · obtain ⟨t, ht⟩ := append_op_to_queue_circuit_mono pi s (rename_pauli op.name)
      (some (ParV.obj (PyNumArr.num pi))) op.wires
    exact ⟨t, by simp only [apply_operation, hR, hB, hH, hP, reduceIte]; simpa using ht⟩
  by_cases hM : op.name = "MS"
  · obtain ⟨t, ht⟩ := append_op_to_queue_circuit_mono pi s "MS"
      (mul_pi pi (extract_par op.parameters)) op.wires
    exact ⟨t, by simp only [apply_operation, hR, hB, hH, hP, hM, reduceIte]; simpa using ht⟩
  · obtain ⟨t, ht⟩ := append_op_to_queue_circuit_mono pi s op.name
      (extract_par op.parameters) op.wires
    exact ⟨t, by simp only [apply_operation, hR, hB, hH, hP, hM, reduceIte]; simpa using ht⟩

/-- The sequential (unchecked) operation fold only ever appends to the
circuit buffer. -/
theorem apply_ops_seq_circuit_mono (pi : ℚ) (ops : List Operation) :
    ∀ s : DeviceState, ∃ t, (apply_ops_seq pi s ops).2.circuit = s.circuit ++ t := by
  induction ops with
  | nil => intro s; exact ⟨[], by simp [apply_ops_seq]⟩
  | cons op rest ih =>
    intro s
    rcases hres : apply_operation pi s op with ⟨r, s₁⟩
    obtain ⟨t₀, ht₀⟩ := apply_operation_circuit_mono pi s op
    rw [hres] at ht₀
    simp only [] at ht₀
    cases r with
    | ok u =>
      obtain ⟨t₁, ht₁⟩ := ih s₁
      refine ⟨t₀ ++ t₁, ?_⟩
      simp [apply_ops_seq, hres, ht₁, ht₀, List.append_assoc]
    | error e =>
      refine ⟨t₀, ?_⟩
      simp [apply_ops_seq, hres, ht₀]

end AQTDevice

namespace AQTDevice

/-- Running the checked loop at a positive index over a block of operations
none of which is named as a state preparation behaves like the unchecked
sequential fold, provided that fold succeeds. -/
theorem apply_loop_clean (pi : ℚ) (ops : List Operation) :
    ∀ (s : DeviceState) (i : Nat) (rest : List Operation), 0 < i →
      (∀ o ∈ ops, o.name ∉ spNames) →
      (apply_ops_seq pi s ops).1 = Except.ok () →
      apply_loop pi s (ops ++ rest) i =
        apply_loop pi (apply_ops_seq pi s ops).2 rest (i + ops.length) := by
  induction ops with
  | nil => intro s i rest _ _ _; simp [apply_ops_seq]
  | cons o os ih =>
    intro s i rest hi hsp hok
    have hname : o.name ∉ spNames := hsp o (by simp)
    rcases hres : apply_operation pi s o with ⟨r, s₁⟩
    cases r with
    | ok u =>
      have hstep : apply_loop pi s ((o :: os) ++ rest) i =
          apply_loop pi s₁ (os ++ rest) (i + 1) := by
        simp [apply_loop, hname, hres]
      have hfold : apply_ops_seq pi s (o :: os) = apply_ops_seq pi s₁ os := by
        simp [apply_ops_seq, hres]
      have hok₁ : (apply_ops_seq pi s₁ os).1 = Except.ok () := by
        rw [hfold] at hok; exact hok
      have hlen : i + (o :: os).length = (i + 1) + os.length := by
        simp [List.length_cons]; omega
      rw [hstep, hfold, hlen]
      exact ih s₁ (i + 1) rest (by omega) (fun o₂ h₂ => hsp o₂ (by simp [h₂])) hok₁
    | error e =>
      exfalso
      have hcontra : (apply_ops_seq pi s (o :: os)).1 = Except.error e := by
        simp [apply_ops_seq, hres]
      rw [hok] at hcontra
      exact Except.noConfusion hcontra

/-- At a positive index, a block containing a state-preparation name makes
the checked loop raise some exception. -/
theorem apply_loop_sp_raises (pi : ℚ) (ops : List Operation) :
    ∀ (s : DeviceState) (i : Nat), 0 < i → (∃ o ∈ ops, o.name ∈ spNames) →
      ∃ e, (apply_loop pi s ops i).1 = Except.error e := by
  induction ops with
  | nil =>
    rintro s i hi ⟨o, ho, hsp⟩
    simp at ho
  | cons o os ih =>
    intro s i hi hex
    by_cases hname : o.name ∈ spNames
    · exact ⟨PyError.deviceError (ordering_msg o.name), by simp [apply_loop, hi, hname]⟩
    · obtain ⟨o₂, ho₂, hsp₂⟩ := hex
      have ho₃ : o₂ ∈ os := by
        rcases List.mem_cons.mp ho₂ with h | h
        · exact absurd (h ▸ hsp₂) hname
        · exact h
      rcases hres : apply_operation pi s o with ⟨r, s₁⟩
      cases r with
      | ok u =>
        obtain ⟨e, he⟩ := ih s₁ (i + 1) (by omega) ⟨o₂, ho₃, hsp₂⟩
        exact ⟨e, by simp [apply_loop, hname, hres, he]⟩
      | error e =>
        exact ⟨e, by simp [apply_loop, hname, hres]⟩

/-- A clean prefix followed by a state-preparation operation makes the
checked loop raise exactly the ordering `DeviceError`, leaving the device in
the state reached by translating the prefix. -/
theorem apply_loop_prefix_sp (pi : ℚ) (s : DeviceState) (pre : List Operation)
    (op : Operation) (post : List Operation) (hpre : pre ≠ [])
    (hclean : ∀ o ∈ pre.drop 1, o.name ∉ spNames) (hsp : op.name ∈ spNames)
    (hok : (apply_ops_seq pi s pre).1 = Except.ok ()) :
    apply_loop pi s (pre ++ op :: post) 0 =
      (Except.error (PyError.deviceError (ordering_msg op.name)),
        (apply_ops_seq pi s pre).2) := by
  cases pre with
  | nil => exact absurd rfl hpre
  | cons p ptail =>
    rcases hres : apply_operation pi s p with ⟨r, s₁⟩
    cases r with
    | error e =>
      exfalso
      have hcontra : (apply_ops_seq pi s (p :: ptail)).1 = Except.error e := by
        simp [apply_ops_seq, hres]
      rw [hok] at hcontra
      exact Except.noConfusion hcontra
    | ok u =>
      have hfold : apply_ops_seq pi s (p :: ptail) = apply_ops_seq pi s₁ ptail := by
        simp [apply_ops_seq, hres]
      have hok₁ : (apply_ops_seq pi s₁ ptail).1 = Except.ok () := by
        rw [hfold] at hok; exact hok
      have hstep : apply_loop pi s ((p :: ptail) ++ op :: post) 0 =
          apply_loop pi s₁ (ptail ++ op :: post) 1 := by
        simp [apply_loop, hres]
      have hclean₁ : ∀ o ∈ ptail, o.name ∉ spNames := by
        intro o ho; exact hclean o (by simpa using ho)
      have hmain := apply_loop_clean pi ptail s₁ 1 (op :: post) (by omega) hclean₁ hok₁
      have hfinal : apply_loop pi (apply_ops_seq pi s₁ ptail).2 (op :: post)
          (1 + ptail.length) =
          (Except.error (PyError.deviceError (ordering_msg op.name)),
            (apply_ops_seq pi s₁ ptail).2) := by
        have hcond : 0 < 1 + ptail.length ∧ op.name ∈ spNames := ⟨by omega, hsp⟩
        simp [apply_loop, hcond]
      rw [hstep, hmain, hfinal, hfold]

/-- When the translation phase raises, `apply` propagates the exception,
keeps the reached state, and issues no request. -/
theorem apply_of_translate_error (pi : ℚ) (vs : Nat → Bool) (s : DeviceState)
    (ops rots : List Operation) (oracle : List Response) (e : PyError)
    (s₁ : DeviceState) (htr : translate_phase pi s ops rots = (Except.error e, s₁)) :
    apply pi vs s ops rots oracle = (RunResult.raised e, s₁, []) := by
  simp [apply, htr]

end AQTDevice

namespace AQTDevice

/-- A raising translation loop makes the whole translation phase raise. -/
theorem translate_phase_fst_error (pi : ℚ) (s : DeviceState)
    (ops rots : List Operation) (e : PyError) (s₁ : DeviceState)
    (h : apply_loop pi s ops 0 = (Except.error e, s₁)) :
    translate_phase pi s ops rots = (Except.error e, s₁) := by
  simp [translate_phase, h]

end AQTDevice

/-- C2 (amended): if a state-preparation operation (`BasisState` or
`QubitStateVector`) occurs at any position other than the first, `apply`
raises an exception before the submission, so no network request at all is
issued; when additionally every earlier operation translates successfully
(as any well-formed supported prefix does), the raised exception is exactly
the operation-ordering `DeviceError`.  (As stated, the claim fails only in
the corner where an earlier operation itself fails to translate: the raised
error is then that translation error, not the ordering device error — see
the counterexample.) -/
theorem C2_state_prep_ordering :
    (∀ (pi : ℚ) (vs : Nat → Bool) (s : DeviceState) (ops rots : List Operation)
        (oracle : List Response) (i : Nat) (h : i < ops.length), 0 < i →
        (ops.get ⟨i, h⟩).name ∈ AQTDevice.spNames →
        (∃ e, (AQTDevice.apply pi vs s ops rots oracle).1 = RunResult.raised e) ∧
        (AQTDevice.apply pi vs s ops rots oracle).2.2 = []) ∧
    (∀ (pi : ℚ) (vs : Nat → Bool) (s : DeviceState) (pre : List Operation)
        (op : Operation) (post rots : List Operation) (oracle : List Response),
        pre ≠ [] →
        (∀ o ∈ pre.drop 1, o.name ∉ AQTDevice.spNames) →
        op.name ∈ AQTDevice.spNames →
        (AQTDevice.apply_ops_seq pi s pre).1 = Except.ok () →
        (AQTDevice.apply pi vs s (pre ++ op :: post) rots oracle).1 =
          RunResult.raised (PyError.deviceError (AQTDevice.ordering_msg op.name)) ∧
        (AQTDevice.apply pi vs s (pre ++ op :: post) rots oracle).2.2 = []) := by
  constructor
  · intro pi vs s ops rots oracle i h hi hsp
    have hex : ∃ e s₂, AQTDevice.apply_loop pi s ops 0 = (Except.error e, s₂) := by
      cases ops with
      | nil => simp at h
      | cons o₀ os =>
        obtain ⟨j, rfl⟩ : ∃ j, i = j + 1 := ⟨i - 1, by omega⟩
        have hj : j < os.length := by simpa using h
        have hmem : os.get ⟨j, hj⟩ ∈ os := os.get_mem j hj
        have hsp₂ : (os.get ⟨j, hj⟩).name ∈ AQTDevice.spNames := by
          simpa using hsp
        rcases hres : AQTDevice.apply_operation pi s o₀ with ⟨r, s₁⟩
        cases r with
        | error e => exact ⟨e, s₁, by simp [AQTDevice.apply_loop, hres]⟩
        | ok u =>
          obtain ⟨e, he⟩ := AQTDevice.apply_loop_sp_raises pi os s₁ 1 (by omega)
            ⟨_, hmem, hsp₂⟩
          rcases hl : AQTDevice.apply_loop pi s₁ os 1 with ⟨r₂, s₂⟩
          rw [hl] at he
          simp only [] at he
          subst he
          exact ⟨e, s₂, by simp [AQTDevice.apply_loop, hres, hl]⟩
    obtain ⟨e, s₂, hloop⟩ := hex
    have happ := AQTDevice.apply_of_translate_error pi vs s ops rots oracle e s₂
      (AQTDevice.translate_phase_fst_error pi s ops rots e s₂ hloop)
    rw [happ]
    exact ⟨⟨e, rfl⟩, rfl⟩
  · intro pi vs s pre op post rots oracle hpre hclean hsp hok
    have hloop := AQTDevice.apply_loop_prefix_sp pi s pre op post hpre hclean hsp hok
    have happ := AQTDevice.apply_of_translate_error pi vs s (pre ++ op :: post) rots
      oracle _ _ (AQTDevice.translate_phase_fst_error pi s (pre ++ op :: post) rots _ _ hloop)
    rw [happ]
    exact ⟨rfl, rfl⟩

/-- C2 witness: a clean `PauliX` prefix followed by a misplaced `BasisState`
raises exactly the ordering error and issues no request. -/
theorem C2_state_prep_ordering_witness :
    (AQTDevice.apply 2 (fun _ => true) exampleState
        ([⟨"PauliX", [], [0]⟩] ++ ⟨"BasisState", [PyNumArr.arr [1]], [0]⟩ :: [])
        [] []).1 =
      RunResult.raised (PyError.deviceError (AQTDevice.ordering_msg "BasisState")) ∧
    (AQTDevice.apply 2 (fun _ => true) exampleState
        ([⟨"PauliX", [], [0]⟩] ++ ⟨"BasisState", [PyNumArr.arr [1]], [0]⟩ :: [])
        [] []).2.2 = [] :=
  C2_state_prep_ordering.2 2 (fun _ => true) exampleState
    [⟨"PauliX", [], [0]⟩] ⟨"BasisState", [PyNumArr.arr [1]], [0]⟩ [] [] []
    (by simp) (by simp) (by simp [AQTDevice.spNames])
    (by simp [AQTDevice.apply_ops_seq, AQTDevice.apply_operation,
      AQTDevice.append_op_to_queue, AQTDevice.operation_map, AQTDevice.rename_pauli_eq.1])

/-- C2 counterexample: with an untranslatable first operation (`CRZ`, which
has no mapping) followed by a misplaced `BasisState`, `apply` raises the
`KeyError` from the first operation, not an operation-ordering
`DeviceError`, although a state preparation occurs at position 1. -/
theorem C2_counterexample :
    (AQTDevice.apply 2 (fun _ => true) exampleState
        [⟨"CRZ", [PyNumArr.num (1/2)], [0, 1]⟩, ⟨"BasisState", [PyNumArr.arr [1]], [0]⟩]
        [] []).1 = RunResult.raised (PyError.keyError "CRZ") ∧
    raisedDeviceError
      ((AQTDevice.apply 2 (fun _ => true) exampleState
        [⟨"CRZ", [PyNumArr.num (1/2)], [0, 1]⟩, ⟨"BasisState", [PyNumArr.arr [1]], [0]⟩]
        [] []).1) = false := by
  constructor
  · decide
  · decide

/-- C10: when the ordering error is raised for a state preparation at a
positive position after a successfully translated prefix, the prefix's
translated entries have already been appended to the circuit buffer and are
not rolled back: the post-state of the failed `apply` is exactly the state
reached by translating the prefix, whose buffer extends the original one. -/
theorem C10_failed_apply_not_atomic (pi : ℚ) (vs : Nat → Bool) (s : DeviceState)
    (pre : List Operation) (op : Operation) (post rots : List Operation)
    (oracle : List Response) (hpre : pre ≠ [])
    (hclean : ∀ o ∈ pre.drop 1, o.name ∉ AQTDevice.spNames)
    (hsp : op.name ∈ AQTDevice.spNames)
    (hok : (AQTDevice.apply_ops_seq pi s pre).1 = Except.ok ()) :
    AQTDevice.apply pi vs s (pre ++ op :: post) rots oracle =
      (RunResult.raised (PyError.deviceError (AQTDevice.ordering_msg op.name)),
        (AQTDevice.apply_ops_seq pi s pre).2, []) ∧
    ∃ added, (AQTDevice.apply_ops_seq pi s pre).2.circuit = s.circuit ++ added := by
  constructor
  · exact AQTDevice.apply_of_translate_error pi vs s (pre ++ op :: post) rots oracle _ _
      (AQTDevice.translate_phase_fst_error pi s (pre ++ op :: post) rots _ _
        (AQTDevice.apply_loop_prefix_sp pi s pre op post hpre hclean hsp hok))
  · exact AQTDevice.apply_ops_seq_circuit_mono pi pre s

/-- C10 witness: concrete instance with a `Hadamard` prefix. -/
theorem C10_failed_apply_not_atomic_witness :
    AQTDevice.apply 2 (fun _ => true) exampleState
        ([⟨"Hadamard", [], [1]⟩] ++ ⟨"QubitStateVector", [PyNumArr.arr [1]], [0]⟩ :: [])
        [] [] =
      (RunResult.raised (PyError.deviceError (AQTDevice.ordering_msg "QubitStateVector")),
        (AQTDevice.apply_ops_seq 2 exampleState [⟨"Hadamard", [], [1]⟩]).2, []) ∧
    ∃ added, (AQTDevice.apply_ops_seq 2 exampleState [⟨"Hadamard", [], [1]⟩]).2.circuit =
      exampleState.circuit ++ added :=
  C10_failed_apply_not_atomic 2 (fun _ => true) exampleState
    [⟨"Hadamard", [], [1]⟩] ⟨"QubitStateVector", [PyNumArr.arr [1]], [0]⟩ [] [] []
    (by simp) (by simp) (by simp [AQTDevice.spNames])
    (by simp [AQTDevice.apply_ops_seq, AQTDevice.apply_operation,
      AQTDevice.append_op_to_queue, AQTDevice.operation_map])

/-- C4: if the translation phase succeeds and the submission response has a
status the validator rejects, `apply` raises the gateway error carrying the
response's status and body, and the issued requests are exactly the single
submission request: the poll loop is never entered and no poll request or
retry occurs. -/
theorem C4_invalid_status (pi : ℚ) (vs : Nat → Bool) (s s₂ : DeviceState)
    (ops rots : List Operation) (r : Response) (rest : List Response)
    (htr : AQTDevice.translate_phase pi s ops rots = (Except.ok (), s₂))
    (hst : vs r.statusCode = false) :
    AQTDevice.apply pi vs s ops rots (r :: rest) =
      (RunResult.raised (PyError.gatewayError r.statusCode r.text),
        AQTDevice.prepared_state s₂,
        [AQTDevice.submit_request (AQTDevice.prepared_state s₂)]) := by
  simp [AQTDevice.apply, htr, hst]

/-- C4 witness: a concrete rejected submission (status 500) after a
one-`Hadamard` circuit. -/
theorem C4_invalid_status_witness :
    AQTDevice.apply 2 (fun c => c == 200) exampleState [⟨"Hadamard", [], [0]⟩] []
        (⟨500, "Server Error", ⟨"j1", "error", []⟩⟩ :: []) =
      (RunResult.raised (PyError.gatewayError 500 "Server Error"),
        AQTDevice.prepared_state { exampleState with
          circuit := [CircuitEntry.entry (some "Y") (PyNumArr.num (1/2)) [0]] },
        [AQTDevice.submit_request (AQTDevice.prepared_state { exampleState with
          circuit := [CircuitEntry.entry (some "Y") (PyNumArr.num (1/2)) [0]] })]) :=
  C4_invalid_status 2 (fun c => c == 200) exampleState
    { exampleState with circuit := [CircuitEntry.entry (some "Y") (PyNumArr.num (1/2)) [0]] }
    [⟨"Hadamard", [], [0]⟩] [] ⟨500, "Server Error", ⟨"j1", "error", []⟩⟩ []
    (by simp [AQTDevice.translate_phase, AQTDevice.apply_loop, AQTDevice.apply_ops_seq,
      AQTDevice.apply_operation, AQTDevice.append_op_to_queue, AQTDevice.operation_map,
      AQTDevice.spNames, exampleState])
    rfl

namespace AQTDevice

/-- The post-state of `_append_op_to_queue` differs from the input state at
most in the circuit buffer. -/
theorem append_op_to_queue_shape (pi : ℚ) (s : DeviceState) (n : String)
    (par : Option ParV) (ws : List Nat) :
    (append_op_to_queue pi s n par ws).2 =
      { s with circuit := (append_op_to_queue pi s n par ws).2.circuit } := by
  rcases par with _ | p
  · rfl
  rcases p with o | ⟨o₁, o₂⟩
  · rcases o with x | xs <;> rcases hm : operation_map n with _ | m <;>
      simp [append_op_to_queue, hm]
  · rfl

/-- The post-state of the `BasisState` loop differs from the input state at
most in the circuit buffer. -/
theorem basis_state_loop_shape (pi : ℚ) (l : List (ℚ × Nat)) :
    ∀ s : DeviceState, (basis_state_loop pi s l).2 =
      { s with circuit := (basis_state_loop pi s l).2.circuit } := by
  induction l with
  | nil => intro s; rfl
  | cons bw rest ih =>
    intro s
    obtain ⟨b, w⟩ := bw
    by_cases hb : b = 1
    · rcases hres : append_op_to_queue pi s "RX" (some (ParV.obj (PyNumArr.num pi))) [w]
        with ⟨r, s₁⟩
      have hsh := append_op_to_queue_shape pi s "RX" (some (ParV.obj (PyNumArr.num pi))) [w]
      rw [hres] at hsh
      simp only [] at hsh
      cases r with
      | ok u =>
        have := ih s₁
        simp only [basis_state_loop, hb, hres, if_pos]
        rw [this, hsh]
      | error e =>
        simp only [basis_state_loop, hb, hres, if_pos]
        rw [hsh]
    · simp only [basis_state_loop, hb, if_neg, reduceIte]
      exact ih s

/-- The post-state of `_apply_operation` differs from the input state at
most in the circuit buffer. -/
theorem apply_operation_shape (pi : ℚ) (s : DeviceState) (op : Operation) :
    (apply_operation pi s op).2 =
      { s with circuit := (apply_operation pi s op).2.circuit } := by
  by_cases hR : op.name = "R"
  · rcases hp : extract_par op.parameters with _ | p
    · simp [apply_operation, hR, hp]
    rcases p with o | ⟨o₁, o₂⟩
    · simp [apply_operation, hR, hp]
    rcases o₁ with x | xs
    · rcases o₂ with y | ys <;> simp [apply_operation, hR, hp]
    · simp [apply_operation, hR, hp]
  by_cases hB : op.name = "BasisState"
  · rcases hp : extract_par op.parameters with _ | p
    · simp [apply_operation, hR, hB, hp]
    rcases p with o | ⟨o₁, o₂⟩
    · rcases o with x | xs
      · simp [apply_operation, hR, hB, hp]
      · have := basis_state_loop_shape pi (xs.zip op.wires) s
        simp only [apply_operation, hR, hB, hp, if_neg, if_pos, reduceIte]
        exact this
    · simp [apply_operation, hR, hB, hp]
  by_cases hH : op.name = "Hadamard"
  · have := append_op_to_queue_shape pi s "RY"
      (some (ParV.obj (PyNumArr.num ((1/2 : ℚ) * pi)))) op.wires
    simp only [apply_operation, hR, hB, hH, reduceIte]
    simpa using this
  by_cases hP : op.name = "PauliX" ∨ op.name = "PauliY" ∨ op.name = "PauliZ"
  · have := append_op_to_queue_shape pi s (rename_pauli op.name)
      (some (ParV.obj (PyNumArr.num pi))) op.wires
    simp only [apply_operation, hR, hB, hH, hP, reduceIte]
    simpa using this
  by_cases hM : op.name = "MS"
  · have := append_op_to_queue_shape pi s "MS"
      (mul_pi pi (extract_par op.parameters)) op.wires
    simp only [apply_operation, hR, hB, hH, hP, hM, reduceIte]
    simpa [hM] using this
  · have := append_op_to_queue_shape pi s op.name
      (extract_par op.parameters) op.wires
    simp only [apply_operation, hR, hB, hH, hP, hM, reduceIte]
    simpa using this

/-- The post-state of the unchecked fold differs from the input state at
most in the circuit buffer. -/
theorem apply_ops_seq_shape (pi : ℚ) (ops : List Operation) :
    ∀ s : DeviceState, (apply_ops_seq pi s ops).2 =
      { s with circuit := (apply_ops_seq pi s ops).2.circuit } := by
  induction ops with
  | nil => intro s; rfl
  | cons op rest ih =>
    intro s
    rcases hres : apply_operation pi s op with ⟨r, s₁⟩
    have hsh := apply_operation_shape pi s op
    rw [hres] at hsh
    simp only [] at hsh
    cases r with
    | ok u =>
      have := ih s₁
      simp only [apply_ops_seq, hres]
      rw [this, hsh]
    | error e =>
      simp only [apply_ops_seq, hres]
      rw [hsh]

/-- The post-state of the checked loop differs from the input state at most
in the circuit buffer. -/
theorem apply_loop_shape (pi : ℚ) (ops : List Operation) :
    ∀ (s : DeviceState) (i : Nat), (apply_loop pi s ops i).2 =
      { s with circuit := (apply_loop pi s ops i).2.circuit } := by
  induction ops with
  | nil => intro s i; rfl
  | cons op rest ih =>
    intro s i
    by_cases hc : 0 < i ∧ op.name ∈ spNames
    · simp [apply_loop, hc]
    · rcases hres : apply_operation pi s op with ⟨r, s₁⟩
      have hsh := apply_operation_shape pi s op
      rw [hres] at hsh
      simp only [] at hsh
      cases r with
      | ok u =>
        have := ih s₁ (i + 1)
        simp only [apply_loop, hc, hres, if_neg, reduceIte]
        rw [this, hsh]
      | error e =>
        simp only [apply_loop, hc, hres, if_neg, reduceIte]
        rw [hsh]

/-- The post-state of the translation phase differs from the input state at
most in the circuit buffer. -/
theorem translate_phase_shape (pi : ℚ) (s : DeviceState) (ops rots : List Operation) :
    (translate_phase pi s ops rots).2 =
      { s with circuit := (translate_phase pi s ops rots).2.circuit } := by
  rcases hl : apply_loop pi s ops 0 with ⟨r, s₁⟩
  have hsh := apply_loop_shape pi ops s 0
  rw [hl] at hsh
  simp only [] at hsh
  cases r with
  | ok u =>
    have hsh₂ := apply_ops_seq_shape pi rots s₁
    simp only [translate_phase, hl]
    rw [hsh₂, hsh]
  | error e =>
    simp only [translate_phase, hl]
    rw [hsh]

/-- The poll loop preserves every field except possibly `samples`. -/
theorem poll_loop_initial_shots (s : DeviceState) (qid : String)
    (oracle : List Response) :
    ∀ job, (poll_loop s qid oracle job).2.1.initial_shots = s.initial_shots ∧
      (poll_loop s qid oracle job).2.1.shots = s.shots := by
  induction oracle with
  | nil =>
    intro job
    by_cases h : job.status = "finished" <;> simp [poll_loop, h]
  | cons r rest ih =>
    intro job
    by_cases h : job.status = "finished" <;> simp [poll_loop, h, ih r.job]

/-- A full `apply` call preserves the originally configured shot count. -/
theorem apply_initial_shots (pi : ℚ) (vs : Nat → Bool) (s : DeviceState)
    (ops rots : List Operation) (oracle : List Response) :
    (apply pi vs s ops rots oracle).2.1.initial_shots = s.initial_shots := by
  rcases htr : translate_phase pi s ops rots with ⟨r, s₂⟩
  have hsh := translate_phase_shape pi s ops rots
  rw [htr] at hsh
  simp only [] at hsh
  have hs₂ : s₂.initial_shots = s.initial_shots := by rw [hsh]
  cases r with
  | error e => simp [apply, htr, hs₂]
  | ok u =>
    cases oracle with
    | nil => simp [apply, htr, prepared_state, hs₂]
    | cons r₀ rest =>
      by_cases hv : vs r₀.statusCode
      · have hp := (poll_loop_initial_shots (prepared_state s₂) r₀.job.id rest r₀.job).1
        have heq : (apply pi vs s ops rots (r₀ :: rest)).2.1 =
            (poll_loop (prepared_state s₂) r₀.job.id rest r₀.job).2.1 := by
          simp [apply, htr, hv]
        rw [heq, hp]
        simpa [prepared_state] using hs₂
      · simp [apply, htr, hv, prepared_state, hs₂]

end AQTDevice

namespace AQTDevice

/-- The post-state of `set_api_configs` differs from the input state at most
in `api_key`, `header`, `data` and `hostname`. -/
theorem set_api_configs_post (s : DeviceState) (env : Option String) :
    ∃ key hd dt hn, (set_api_configs s env).2 =
      { s with api_key := key, header := hd, data := dt, hostname := hn } := by
  by_cases ht : truthyKey (if truthyKey s.api_key then s.api_key else env) = true
  · rcases hk : (if truthyKey s.api_key then s.api_key else env) with _ | k
    · rw [hk] at ht
      simp [truthyKey] at ht
    · refine ⟨some k, [("Ocp-Apim-Subscription-Key", k)],
        { access_token := k, no_qubits := s.num_wires, repetitions := none },
        join_path BASE_HOSTNAME TARGET_PATH, ?_⟩
      rw [hk] at ht
      simp [set_api_configs, hk, ht]
  · refine ⟨(if truthyKey s.api_key then s.api_key else env), s.header, s.data, s.hostname, ?_⟩
    simp [set_api_configs, ht]

/-- Lemma: `set_api_configs` never touches the execution fields: shot counts,
circuit buffer, serialized circuit or cached samples. -/
theorem set_api_configs_preserves (s : DeviceState) (env : Option String) :
    (set_api_configs s env).2.shots = s.shots ∧
    (set_api_configs s env).2.initial_shots = s.initial_shots ∧
    (set_api_configs s env).2.circuit = s.circuit ∧
    (set_api_configs s env).2.circuit_json = s.circuit_json ∧
    (set_api_configs s env).2.samples = s.samples := by
  obtain ⟨key, hd, dt, hn, heq⟩ := set_api_configs_post s env
  rw [heq]
  exact ⟨rfl, rfl, rfl, rfl, rfl⟩

/-- States reachable through the device lifecycle (construction, `reset`,
`apply`) from a construction with wire count `wires`, shot count `shots₀`,
constructor key `key` and environment `env₀`. -/
inductive Reachable (wires shots₀ : Nat) (key env₀ : Option String) : DeviceState → Prop where
  | base : ∀ s, init wires shots₀ key env₀ = Except.ok s →
      Reachable wires shots₀ key env₀ s
  | reset_step : ∀ s env, Reachable wires shots₀ key env₀ s →
      Reachable wires shots₀ key env₀ (reset s env).2
  | apply_step : ∀ s pi vs ops rots oracle, Reachable wires shots₀ key env₀ s →
      Reachable wires shots₀ key env₀ (apply pi vs s ops rots oracle).2.1

/-- Every reachable state remembers the originally configured shot count in
`_initial_shots`. -/
theorem reachable_initial_shots {wires shots₀ : Nat} {key env₀ : Option String}
    {s : DeviceState} (h : Reachable wires shots₀ key env₀ s) :
    s.initial_shots = shots₀ := by
  induction h with
  | base s hs =>
    rcases hc : set_api_configs { num_wires := wires, shots := shots₀, initial_shots := shots₀, api_key := key, circuit := [], circuit_json := "", samples := none, header := [], data := { access_token := "", no_qubits := 0, repetitions := none }, hostname := "" } env₀ with ⟨r, s₁⟩
    have hpres := (set_api_configs_preserves { num_wires := wires, shots := shots₀, initial_shots := shots₀, api_key := key, circuit := [], circuit_json := "", samples := none, header := [], data := { access_token := "", no_qubits := 0, repetitions := none }, hostname := "" } env₀).2.1
    rw [hc] at hpres
    simp at hpres
    cases r with
    | ok u =>
      have hinit : init wires shots₀ key env₀ = Except.ok s₁ := by
        simp [init, hc]
      rw [hinit] at hs
      injection hs with hss
      rw [← hss]
      exact hpres
    | error e =>
      exfalso
      have hinit : init wires shots₀ key env₀ = Except.error e := by
        simp [init, hc]
      rw [hinit] at hs
      exact Except.noConfusion hs
  | reset_step s env hr ih =>
    have hp := (set_api_configs_preserves { s with shots := s.initial_shots, circuit := [], circuit_json := "", samples := none } env).2.1
    simp only [reset]
    rw [hp]
    exact ih
  | apply_step s pi vs ops rots oracle hr ih =>
    rw [apply_initial_shots]
    exact ih

end AQTDevice

/-- C5: after any call to `reset`, regardless of the prior state, the
circuit buffer and serialized circuit string are empty, the cached samples
are cleared, and the shot count equals `_initial_shots`; moreover every
state reachable from a construction with shot count `shots₀` has
`_initial_shots = shots₀`, so the restored shot count is the originally
configured one. -/
theorem C5_reset_restores (s : DeviceState) (env : Option String) :
    ((AQTDevice.reset s env).2.circuit = [] ∧
     (AQTDevice.reset s env).2.circuit_json = "" ∧
     (AQTDevice.reset s env).2.samples = none ∧
     (AQTDevice.reset s env).2.shots = s.initial_shots) ∧
    (∀ (wires shots₀ : Nat) (key env₀ : Option String),
      AQTDevice.Reachable wires shots₀ key env₀ s → s.initial_shots = shots₀) := by
  constructor
  · have hp := AQTDevice.set_api_configs_preserves { s with shots := s.initial_shots, circuit := [], circuit_json := "", samples := none } env
    refine ⟨?_, ?_, ?_, ?_⟩ <;> simp only [AQTDevice.reset]
    · rw [hp.2.2.1]
    · rw [hp.2.2.2.1]
    · rw [hp.2.2.2.2]
    · rw [hp.1]
  · intro wires shots₀ key env₀ h
    exact AQTDevice.reachable_initial_shots h

/-- C5 witness: at the state constructed by `init 3 100 (some "k") none`,
`reset` clears everything and restores 100 shots. -/
theorem C5_reset_restores_witness :
    ((AQTDevice.reset exampleState none).2.circuit = [] ∧
     (AQTDevice.reset exampleState none).2.circuit_json = "" ∧
     (AQTDevice.reset exampleState none).2.samples = none ∧
     (AQTDevice.reset exampleState none).2.shots = exampleState.initial_shots) ∧
    exampleState.initial_shots = 100 :=
  ⟨(C5_reset_restores exampleState none).1,
    (C5_reset_restores exampleState none).2 3 100 (some "k") none
      (AQTDevice.Reachable.base exampleState (by decide))⟩

/-- C9: if the constructor key is falsy and the `AQT_TOKEN` environment
variable is also unset (or empty), construction and `reset` raise the
configuration `ValueError` eagerly (neither takes a response oracle, so no
network interaction is even possible); if either source provides a truthy
key, construction succeeds and that key is stored in the request header and
in the `access_token` field of the request body data. -/
theorem C9_api_key_configuration :
    (∀ (wires shots : Nat) (key env : Option String),
      truthyKey key = false → truthyKey env = false →
      AQTDevice.init wires shots key env =
        Except.error (PyError.valueError "No valid api key for AQT platform found.")) ∧
    (∀ (s : DeviceState) (env : Option String),
      truthyKey s.api_key = false → truthyKey env = false →
      (AQTDevice.reset s env).1 =
        Except.error (PyError.valueError "No valid api key for AQT platform found.")) ∧
    (∀ (wires shots : Nat) (k : String) (env : Option String),
      truthyKey (some k) = true →
      ∃ s, AQTDevice.init wires shots (some k) env = Except.ok s ∧
        s.api_key = some k ∧ s.header = [("Ocp-Apim-Subscription-Key", k)] ∧
        s.data.access_token = k) ∧
    (∀ (wires shots : Nat) (key : Option String) (t : String),
      truthyKey key = false → truthyKey (some t) = true →
      ∃ s, AQTDevice.init wires shots key (some t) = Except.ok s ∧
        s.api_key = some t ∧ s.header = [("Ocp-Apim-Subscription-Key", t)] ∧
        s.data.access_token = t) := by
  refine ⟨?_, ?_, ?_, ?_⟩
  · intro wires shots key env h1 h2
    simp [AQTDevice.init, AQTDevice.set_api_configs, h1, h2]
  · intro s env h1 h2
    simp [AQTDevice.reset, AQTDevice.set_api_configs, h1, h2]
  · intro wires shots k env ht
    refine ⟨{ num_wires := wires
              shots := shots
              initial_shots := shots
              api_key := some k
              circuit := []
              circuit_json := ""
              samples := none
              header := [("Ocp-Apim-Subscription-Key", k)]
              data := { access_token := k, no_qubits := wires, repetitions := none }
              hostname := AQTDevice.join_path AQTDevice.BASE_HOSTNAME AQTDevice.TARGET_PATH },
      ?_, rfl, rfl, rfl⟩
    simp [AQTDevice.init, AQTDevice.set_api_configs, ht]
  · intro wires shots key t h1 h2
    refine ⟨{ num_wires := wires
              shots := shots
              initial_shots := shots
              api_key := some t
              circuit := []
              circuit_json := ""
              samples := none
              header := [("Ocp-Apim-Subscription-Key", t)]
              data := { access_token := t, no_qubits := wires, repetitions := none }
              hostname := AQTDevice.join_path AQTDevice.BASE_HOSTNAME AQTDevice.TARGET_PATH },
      ?_, rfl, rfl, rfl⟩
    simp [AQTDevice.init, AQTDevice.set_api_configs, h1, h2]

/-- C9 witness: with no constructor key and no environment token, `init`
raises the configuration error. -/
theorem C9_api_key_configuration_witness :
    AQTDevice.init 3 100 none none =
      Except.error (PyError.valueError "No valid api key for AQT platform found.") :=
  C9_api_key_configuration.1 3 100 none none rfl rfl

namespace AQTDevice

/-- Transposing the three stacked coordinate rows produced by the Fortran
unravel turns them into one row of three bits per sample value. -/
theorem np_transpose_three (g₀ g₁ g₂ : Nat → Nat) (vals : List Nat) :
    np_transpose [vals.map g₀, vals.map g₁, vals.map g₂] =
      vals.map (fun v => [g₀ v, g₁ v, g₂ v]) := by
  have key : ∀ (l : List Nat),
      (List.range l.length).map
          (fun j => [(l.map g₀).getD j 0, (l.map g₁).getD j 0, (l.map g₂).getD j 0]) =
        l.map (fun v => [g₀ v, g₁ v, g₂ v]) := by
    intro l
    induction l with
    | nil => simp
    | cons v vs ih =>
      simp only [List.length_cons, List.range_succ_eq_map, List.map_cons, List.map_map,
        List.getD_cons_zero]
      refine congrArg₂ _ rfl ?_
      rw [← ih]
      refine List.map_congr_left ?_
      intro j hj
      simp [Function.comp]
  simp only [np_transpose, List.head?_cons, Option.map_some', Option.getD_some,
    List.length_map]
  simpa using key vals

end AQTDevice

/-- C8: with 3 wires and cached integer samples all below `2 ^ 3`,
`generate_samples` returns one row per shot (shape: number of samples by
number of wires), each row being the reversed-order (least significant bit
to wire 0) unpacking of the sample value; in particular the raw value `5`
yields the bit row `[1, 0, 1]`. -/
theorem C8_generate_samples (s : DeviceState) (vals : List Nat)
    (hw : s.num_wires = 3) (hs : s.samples = some vals) (hv : ∀ v ∈ vals, v < 8) :
    AQTDevice.generate_samples s =
      Except.ok (vals.map (fun v => [v % 2, v / 2 % 2, v / 4 % 2])) ∧
    [(5 : Nat) % 2, 5 / 2 % 2, 5 / 4 % 2] = [1, 0, 1] := by
  constructor
  · have hall : vals.all (· < 2 ^ s.num_wires) = true := by
      rw [hw]
      simp only [List.all_eq_true, decide_eq_true_eq]
      intro v hvm
      simpa using hv v hvm
    have hrange : (List.range s.num_wires).map (fun k => vals.map (fun v => v / 2 ^ k % 2)) =
        [vals.map (fun v => v / 1 % 2), vals.map (fun v => v / 2 % 2),
         vals.map (fun v => v / 4 % 2)] := by
      rw [hw]
      norm_num [List.range_succ]
    have := AQTDevice.np_transpose_three (fun v => v / 1 % 2) (fun v => v / 2 % 2)
      (fun v => v / 4 % 2) vals
    simp only [AQTDevice.generate_samples, hs, hall, if_pos, hrange, this]
    norm_num
  · norm_num

/-- C8 witness: the single raw sample `5` on the 3-wire example device
yields the one-row sample matrix `[[1, 0, 1]]`. -/
theorem C8_generate_samples_witness :
    AQTDevice.generate_samples { exampleState with samples := some [5] } =
      Except.ok ([5].map (fun v => [v % 2, v / 2 % 2, v / 4 % 2])) ∧
    [(5 : Nat) % 2, 5 / 2 % 2, 5 / 4 % 2] = [1, 0, 1] :=
  C8_generate_samples { exampleState with samples := some [5] } [5] rfl rfl
    (by decide)
